import Mathlib

/-!
Shallow embedding of flotilla's node orchestration layer (src/server.go) for
verification of its specification.

Modelling conventions:
- Network addresses are their `String` form (Go code compares addresses via
  `.String()` throughout).  `raft.Leader()` returning a nil `net.Addr` is
  modelled as `none`; calling `.String()` on it is a nil-pointer panic,
  modelled as an explicit `fault` outcome.
- Payload bytes are `List Nat`.
- A callback's buffered result channel is modelled as the list of `Result`s
  ever sent to it; "receives exactly one Result" is that list having length 1.
- External effects (dial success, connection handshake, forward write,
  consensus commit, executor outcome) are oracle parameters, so each code
  path of `Command` / `dispatchToLeader` is an explicit function of them.
- Parts of the repository outside src/server.go (the state machine's
  `newCommand` / `cancel` / `Apply` resolution, `serveFollower`) are modelled
  from the spec; their doc comments say so.
-/

namespace Flotilla

abbrev Addr := String
abbrev Err := String
abbrev Bytes := List Nat

/-- Result of a command: value bytes or an error (spec section 3). -/
structure Result where
  value : Option Bytes
  err : Option Err
deriving Repr, DecidableEq

/-- Key identifying a pending callback: (origin address, request number). -/
abbrev CBKey := Addr × Nat

/-- Modelled from the spec: cancellation of a callback delivers a definitive
error Result to its channel (spec sections 3 and 5); the concrete error value
is opaque to server.go. -/
def cancelResult : Result := ⟨none, some "command cancelled"⟩

/-- Log entry payload produced by bytesForCommand: (origin address, request
number, command name, args). -/
structure Entry where
  origin : Addr
  reqNo : Nat
  name : String
  args : List Bytes
deriving Repr, DecidableEq

/-- Deliver a Result on the channel registered under key k. -/
def deliverTo (chans : List (CBKey × List Result)) (k : CBKey) (r : Result) :
    List (CBKey × List Result) :=
  chans.map (fun p => if p.1 = k then (p.1, p.2 ++ [r]) else p)

/-- Modelled from the spec: the flotillaState component (not under src/):
self address, the per-process atomic request counter, the pending-callback
table, the per-callback result channels, and the applied-entry log standing
for side effects on the embedded store (spec sections 3 and 4.2). -/
structure FlotillaState where
  selfAddr : Addr
  nextReq : Nat
  pending : List CBKey
  chans : List (CBKey × List Result)
  applied : List Entry
deriving Repr, DecidableEq

/-- Modelled from the spec: newCommand allocates the next request number and
registers a fresh CommandCallback keyed by (self address, that number)
(spec section 4.2). -/
def FlotillaState.newCommand (st : FlotillaState) : CBKey × FlotillaState :=
  let k : CBKey := (st.selfAddr, st.nextReq)
  (k, { st with
          nextReq := st.nextReq + 1
          pending := k :: st.pending
          chans := (k, []) :: st.chans })

/-- Modelled from the spec: cancel delivers the definitive error Result once,
idempotently, and removes the pending entry; both resolution paths check
presence before acting (spec section 5). -/
def FlotillaState.cancel (st : FlotillaState) (k : CBKey) : FlotillaState :=
  if k ∈ st.pending then
    { st with
        pending := st.pending.erase k
        chans := deliverTo st.chans k cancelResult }
  else st

/-- Modelled from the spec: Apply first executes the command's side effect
against the store, then looks up (origin, reqNo) in the pending table; if
present it delivers the Result and removes the entry, otherwise the Result is
discarded (spec section 4.2).  r is the executor's outcome. -/
def FlotillaState.applyEntry (st : FlotillaState) (e : Entry) (r : Result) :
    FlotillaState :=
  let st1 := { st with applied := st.applied ++ [e] }
  if (e.origin, e.reqNo) ∈ st1.pending then
    { st1 with
        pending := st1.pending.erase (e.origin, e.reqNo)
        chans := deliverTo st1.chans (e.origin, e.reqNo) r }
  else st1

/-- Everything ever delivered on the result channel of key k. -/
def FlotillaState.deliveries (st : FlotillaState) (k : CBKey) : List Result :=
  (st.chans.lookup k).getD []

/-- A callback that has been cancelled: no longer pending, and its channel
holds exactly the cancellation Result. -/
def FlotillaState.cancelledCB (st : FlotillaState) (k : CBKey) : Prop :=
  k ∉ st.pending ∧ st.deliveries k = [cancelResult]

/-- Well-formedness maintained by the per-process monotonic counter: every
pending key's request number is below the counter (spec section 3
invariants). -/
def FlotillaState.WF (st : FlotillaState) : Prop :=
  ∀ k ∈ st.pending, k.2 < st.nextReq

/-- The server struct of server.go: raft state is abstracted to the facts the
orchestration code reads from it (`raft.State() == raft.Leader` and
`raft.Leader()`), plus the cached leader connection's remote address
(`s.leaderConn.remoteAddr().String()`; `none` when `s.leaderConn == nil`). -/
structure Server where
  state : FlotillaState
  isLeader : Bool
  leaderAddr : Option Addr
  leaderConnAddr : Option Addr
deriving Repr, DecidableEq

/-- Oracle for the externally-determined outcomes met on the dispatch path:
`rpcLayer.Dial`, `newConnToLeader`, and `forwardCommand`. -/
structure NetOracle where
  dialOk : Bool
  connOk : Bool
  connErr : Err
  forwardErr : Option Err
deriving Repr, DecidableEq

/-- Return of dispatchToLeader: Go's pair (*commandCallback, error), or a
runtime fault (nil-pointer panic). -/
inductive DRet where
  | ret (cb : Option CBKey) (e : Option Err)
  | fault
deriving Repr, DecidableEq

/-- Tail of dispatchToLeader once a live leader connection exists
(server.go:262-268): allocate a callback via newCommand, forward it; a write
failure cancels the callback and returns the error. -/
def Server.forwardPhase (s : Server) (o : NetOracle) : DRet × Server :=
  let (cb, st1) := s.state.newCommand
  match o.forwardErr with
  | some e => (.ret none (some e), { s with state := st1.cancel cb })
  | none => (.ret (some cb) none, { s with state := st1 })

/-- Embedding of dispatchToLeader (server.go:239-269).  The reconnect guard is
`s.leaderConn == nil || s.Leader() == nil || s.Leader().String() !=
s.leaderConn.remoteAddr().String()`; inside the reconnect branch the code
dials `s.Leader().String()` (server.go:252), which is a nil-pointer panic when
`s.Leader()` is nil — modelled as `DRet.fault`.  On a `newConnToLeader` error
the code has already overwritten `s.leaderConn` with the nil result
(server.go:256). -/
def Server.dispatchToLeader (s : Server) (o : NetOracle) : DRet × Server :=
  if s.leaderConnAddr.isNone || s.leaderAddr.isNone ||
      s.leaderAddr != s.leaderConnAddr then
    match s.leaderAddr with
    | none => (.fault, s)
    | some la =>
      if !o.dialOk then
        (.ret none (some ("Couldn't connect to leader at " ++ la)), s)
      else if !o.connOk then
        (.ret none (some o.connErr), { s with leaderConnAddr := none })
      else
        { s with leaderConnAddr := some la }.forwardPhase o
  else
    s.forwardPhase o

/-- Channel value returned by Command: either a callback's result channel or
the freshly made one-element buffered channel of the error path, with its
contents. -/
inductive Chan where
  | cbChan (k : CBKey)
  | freshChan (rs : List Result)
deriving Repr, DecidableEq

/-- Return of Command: a channel, or a runtime fault. -/
inductive CmdRet where
  | ret (c : Chan)
  | fault
deriving Repr, DecidableEq

/-- Full outcome of a Command call: returned channel, post state, the entry
submitted to raft.Apply on the leader path (whose future the code discards),
and a ghost flag recording whether the error-path guard `if cb != nil`
(server.go:227-229) executed its body. -/
structure CmdOut where
  ret : CmdRet
  s : Server
  submitted : Option Entry
  guardRan : Bool
deriving Repr, DecidableEq

/-- Embedding of Command (server.go:216-235).  Leader path: allocate a
callback, build the entry bytes, submit to raft.Apply discarding the returned
future, give back the callback's channel.  Otherwise dispatch to the leader;
on a dispatch error, cancel the callback if one was returned and give back a
fresh one-element channel holding the error; on success give back the
callback's channel (`cb.result` on a nil cb would itself be a nil-pointer
panic, hence the fault arm). -/
def Server.command (s : Server) (o : NetOracle) (cmd : String)
    (args : List Bytes) : CmdOut :=
  if s.isLeader then
    let (cb, st1) := s.state.newCommand
    let e : Entry := ⟨cb.1, cb.2, cmd, args⟩
    ⟨.ret (.cbChan cb), { s with state := st1 }, some e, false⟩
  else
    match s.dispatchToLeader o with
    | (.fault, s1) => ⟨.fault, s1, none, false⟩
    | (.ret cbOpt (some e), s1) =>
      match cbOpt with
      | some k =>
        ⟨.ret (.freshChan [⟨none, some e⟩]),
          { s1 with state := s1.state.cancel k }, none, true⟩
      | none => ⟨.ret (.freshChan [⟨none, some e⟩]), s1, none, false⟩
    | (.ret (some k) none, s1) => ⟨.ret (.cbChan k), s1, none, false⟩
    | (.ret none none, s1) => ⟨.fault, s1, none, false⟩

/-- Fresh state machine at process start: counter 0, empty tables. -/
def initState (self : Addr) : FlotillaState := ⟨self, 0, [], [], []⟩

/-- Oracle whose dispatch path fully succeeds. -/
def okOracle : NetOracle := ⟨true, true, "", none⟩

/-- Oracle whose dial and handshake succeed but whose forwardCommand write
fails with e. -/
def failForwardOracle (e : Err) : NetOracle := ⟨true, true, "", some e⟩

/-- End-to-end run of a Command issued on the leader: Command submits the
entry to raft.Apply and discards the future; if consensus commits the entry,
the origin's own state machine applies it (executor outcome r) and resolves
the pending callback; if the submission fails or the entry never commits,
nothing further happens to the callback, since the Apply future's error is
discarded (server.go:221). -/
def leaderRun (self : Addr) (cmd : String) (args : List Bytes)
    (commits : Bool) (r : Result) : CmdOut × FlotillaState :=
  let s0 : Server := ⟨initState self, true, some self, none⟩
  let out := s0.command okOracle cmd args
  match out.submitted, commits with
  | some e, true => (out, out.s.state.applyEntry e r)
  | _, _ => (out, out.s.state)

/-- Modelled from the spec: end-to-end run of a Command issued on a follower.
The Follower Server on the leader (serveFollower, not under src/)
reconstructs the origin address from the remote peer and the request number
from the wire and re-injects the command; delivery happens only through the
origin's own replica applying the committed entry (spec section 4.4).  If
dispatch succeeded and the entry commits, the follower's state machine
applies the entry (executor outcome r); otherwise its state is unchanged. -/
def followerRun (self leader : Addr) (o : NetOracle) (cmd : String)
    (args : List Bytes) (commits : Bool) (r : Result) :
    CmdOut × FlotillaState :=
  let s0 : Server := ⟨initState self, false, some leader, none⟩
  let out := s0.command o cmd args
  match out.ret with
  | .ret (.cbChan k) =>
    if commits then (out, out.s.state.applyEntry ⟨k.1, k.2, cmd, args⟩ r)
    else (out, out.s.state)
  | _ => (out, out.s.state)

/-- Embedding of RemovePeer (server.go:194-200): returns the raft future's
error when leader, nil otherwise; the Bool records whether
raft.RemovePeer was invoked at all. -/
def removePeer (isLeader : Bool) (deadPeer : Addr)
    (futureErr : Option Err) : Option Err × Bool :=
  if isLeader then (futureErr, true) else (none, false)

/-- Modelled from the spec: raft.DefaultConfig() leaves single-node bootstrap
disabled; the flag enables it only for the one-peer case (spec section 6). -/
def defaultEnableSingleNode : Bool := false

/-- Embedding of the config setup in newRaft (server.go:154-157): start from
the default and set EnableSingleNode when the peer list has length 1. -/
def raftEnableSingleNode (peers : List String) : Bool :=
  if peers.length = 1 then true else defaultEnableSingleNode

/-- Embedding of the peer-resolution loop (server.go:132-138): resolve each
peer address in order, returning the first resolution error. -/
def resolvePeers (resolve : String → Option Addr) :
    List String → Except Err (List Addr)
  | [] => .ok []
  | p :: rest =>
    match resolve p with
    | none => .error ("resolve " ++ p)
    | some a =>
      match resolvePeers resolve rest with
      | .error e => .error e
      | .ok tl => .ok (a :: tl)

/-- Embedding of the leader-wait loop of newRaft (server.go:165-178), with
time in whole seconds from loop entry.  leaderAt t is raft.Leader() observed
at second t; the loop returns the second at which a leader was first seen, or
times out once the 60-second deadline has passed (the deadline test
time.Now().After(timeout) runs after each 1-second sleep). -/
def waitLoop (leaderAt : Nat → Option Addr) : Nat → Nat → Except Err Nat
  | t, fuel =>
    match leaderAt t with
    | some _ => .ok t
    | none =>
      match fuel with
      | 0 => .error "Timed out with no leader elected after 1 minute!"
      | fuel' + 1 => waitLoop leaderAt (t + 1) fuel'

/-- The full wait: polls at seconds 0..60 and fails after the check at second
60 (timeout := now + 1 minute, tested strictly after each sleep). -/
def waitForLeader (leaderAt : Nat → Option Addr) : Except Err Nat :=
  waitLoop leaderAt 0 60

/-- Oracle for the external construction steps of newRaft: MDB store,
snapshot store, peer-store writes/reads, raft.NewRaft, and the observed
leader at each second of the wait loop. -/
structure RaftOracle where
  storeOk : Bool
  snapOk : Bool
  setPeersOk : Bool
  peersReadOk : Bool
  raftNewOk : Bool
  leaderAt : Nat → Option Addr

/-- Embedding of newRaft (server.go:114-180): store and snapshot setup, peer
resolution, the SetPeers/Peers round trip, the PeerContained check on the
local transport address, raft construction, then the leader wait.  Every
failure aborts with an error; success returns the second at which a leader
was observed. -/
def newRaft (o : RaftOracle) (resolve : String → Option Addr)
    (localAddr : Addr) (peers : List String) : Except Err Nat :=
  if !o.storeOk then .error "mdb store" else
  if !o.snapOk then .error "snapshot store" else
  match resolvePeers resolve peers with
  | .error e => .error e
  | .ok addrs =>
    if !o.setPeersOk then .error "SetPeers" else
    if !o.peersReadOk then .error "Peers" else
    if localAddr ∉ addrs then
      .error ("Localhost " ++ localAddr ++ " not included in peers") else
    if !o.raftNewOk then .error "NewRaft" else
    waitForLeader o.leaderAt

/-- Directory names computed by NewDB (server.go:55-56). -/
def raftDir (dataDir : String) : String := dataDir ++ "/raft"

/-- Embedded-store directory name computed by NewDB (server.go:56). -/
def mdbDir (dataDir : String) : String := dataDir ++ "/mdb"

/-- Oracle for NewDB's own external steps (server.go:48-102). -/
structure DBOracle where
  mkdirRaftOk : Bool
  mkdirDataOk : Bool
  stateOk : Bool
  streamsOk : Bool
  raftO : RaftOracle

/-- Embedding of NewDB (server.go:48-102): the directory-creation phase
passes exactly raftDir and then dataDir itself to os.MkdirAll
(server.go:58-63), then builds state machine, stream layers and raft,
aborting on the first error.  Returns the result and the list of paths
handed to os.MkdirAll before any component was built. -/
def newDB (o : DBOracle) (resolve : String → Option Addr) (localAddr : Addr)
    (peers : List String) (dataDir : String) :
    Except Err Unit × List String :=
  if !o.mkdirRaftOk then (.error "mkdir raft", []) else
  if !o.mkdirDataOk then (.error "mkdir data", [raftDir dataDir]) else
  let created := [raftDir dataDir, dataDir]
  if !o.stateOk then (.error "newFlotillaState", created) else
  if !o.streamsOk then (.error "NewMultiStream", created) else
  match newRaft o.raftO resolve localAddr peers with
  | .error e => (.error e, created)
  | .ok _ => (.ok (), created)

/-- Embedding of the command-merge loop of NewDB (server.go:64-71): start
from the defaults map, iterate the caller's commands, warn on a name already
present, and overwrite.  Registries are total lookup functions
String → Option α; the accumulated warning list records the names warned
about. -/
def mergeCommands (m : String → Option α) (warns : List String) :
    List (String × α) → (String → Option α) × List String
  | [] => (m, warns)
  | (k, v) :: rest =>
    let warns2 := if (m k).isSome then warns ++ [k] else warns
    mergeCommands (fun n => if n = k then some v else m n) warns2 rest

/-- The registry handed to the state machine (server.go:64-72): defaults
merged with the caller-supplied command list. -/
def commandsForStateMachine (defaults : String → Option α)
    (user : List (String × α)) : (String → Option α) × List String :=
  mergeCommands defaults [] user

/-- Construction oracle in which every external step of newRaft succeeds and
a leader is visible immediately. -/
def allOkRaftOracle : RaftOracle := ⟨true, true, true, true, true, fun _ => some "n1"⟩

/-- Construction oracle in which every external step of NewDB succeeds. -/
def allOkDBOracle : DBOracle := ⟨true, true, true, true, allOkRaftOracle⟩

/-- A follower server with no cached leader connection whose consensus module
reports leader la. -/
def freshFollower (self : Addr) (la : Option Addr) : Server :=
  ⟨initState self, false, la, none⟩

/- ===================== Theorems ===================== -/

/-- Claim C3 (code_bug evidence): on a non-leader node with no cached leader
connection and raft.Leader() = nil, Command does not surface an error Result:
the embedded code reaches s.Leader().String() at server.go:252 on a nil
address and faults (nil-pointer panic), despite the nil test at
server.go:243. -/
theorem C3_nil_leader_fault :
    (Server.dispatchToLeader (freshFollower "n1" none) okOracle).1 = DRet.fault ∧
    (Server.command (freshFollower "n1" none) okOracle "Set" [[1]]).ret = CmdRet.fault :=
  ⟨rfl, rfl⟩

/-- Claim C4: RemovePeer on a non-leader returns nil and never invokes the
consensus module's RemovePeer; on the leader it submits the removal and
returns the future's error (server.go:194-200). -/
theorem C4_removePeer_leader_only (deadPeer : Addr) (futureErr : Option Err) :
    removePeer false deadPeer futureErr = (none, false) ∧
    removePeer true deadPeer futureErr = (futureErr, true) :=
  ⟨rfl, rfl⟩

/-- Claim C5: the single-node-bootstrap flag is enabled iff the peer list has
exactly one entry, and for every other length it keeps the default value
(server.go:154-157). -/
theorem C5_single_node_flag (peers : List String) :
    (raftEnableSingleNode peers = true ↔ peers.length = 1) ∧
    (peers.length ≠ 1 → raftEnableSingleNode peers = defaultEnableSingleNode) := by
  unfold raftEnableSingleNode defaultEnableSingleNode
  constructor
  · split <;> simp_all
  · intro h
    simp [h]

/-- Claim C5 witness: a two-peer list keeps the default flag value. -/
theorem C5_witness :
    raftEnableSingleNode ["a", "b"] = defaultEnableSingleNode :=
  (C5_single_node_flag ["a", "b"]).2 (by decide)

/-- Claim C8 (code_bug evidence): the directory-creation phase of NewDB
passes exactly dataDir/raft and dataDir to os.MkdirAll (server.go:58-63);
the embedded-store directory dataDir/mdb, computed at server.go:56, is never
created before the components are built. -/
theorem C8_mdb_dir_not_created :
    (newDB allOkDBOracle (fun p => some p) "n1" ["n1"] "/data").2 =
      [raftDir "/data", "/data"] ∧
    mdbDir "/data" ∉ (newDB allOkDBOracle (fun p => some p) "n1" ["n1"] "/data").2 := by
  constructor
  · rfl
  · decide

/-- Characterization of the wait loop: it returns .ok n exactly when n is the
first second in the window at which a leader is visible. -/
lemma waitLoop_ok_iff (L : Nat → Option Addr) :
    ∀ fuel t n, waitLoop L t fuel = Except.ok n ↔
      t ≤ n ∧ n ≤ t + fuel ∧ (L n).isSome ∧ ∀ u, t ≤ u → u < n → L u = none := by
  intro fuel
  induction fuel with
  | zero =>
    intro t n
    cases hL : L t with
    | none =>
      simp only [waitLoop, hL]
      constructor
      · intro h
        exact absurd h (by simp)
      · rintro ⟨h1, h2, h3, -⟩
        have : n = t := by omega
        subst this
        rw [hL] at h3
        simp at h3
    | some a =>
      simp only [waitLoop, hL, Except.ok.injEq]
      constructor
      · rintro rfl
        exact ⟨le_refl t, by omega, by simp [hL], fun u hu hun => by omega⟩
      · rintro ⟨h1, h2, -, -⟩
        omega
  | succ fuel ih =>
    intro t n
    cases hL : L t with
    | some a =>
      simp only [waitLoop, hL, Except.ok.injEq]
      constructor
      · rintro rfl
        exact ⟨le_refl t, by omega, by simp [hL], fun u hu hun => by omega⟩
      · rintro ⟨h1, h2, h3, h4⟩
        by_contra hne
        have htn : t < n := lt_of_le_of_ne h1 (by omega)
        have := h4 t (le_refl t) htn
        rw [hL] at this
        exact Option.noConfusion this
    | none =>
      simp only [waitLoop, hL]
      rw [ih (t + 1) n]
      constructor
      · rintro ⟨h1, h2, h3, h4⟩
        refine ⟨by omega, by omega, h3, ?_⟩
        intro u hu hun
        rcases Nat.eq_or_lt_of_le hu with heq | hlt
        · subst heq
          exact hL
        · exact h4 u (by omega) hun
      · rintro ⟨h1, h2, h3, h4⟩
        have hne : n ≠ t := by
          rintro rfl
          rw [hL] at h3
          simp at h3
        exact ⟨by omega, by omega, h3, fun u hu hun => h4 u (by omega) hun⟩

/-- When no leader appears anywhere in the window, the loop ends with the
timeout error. -/
lemma waitLoop_timeout (L : Nat → Option Addr) :
    ∀ fuel t, (∀ u, t ≤ u → u ≤ t + fuel → L u = none) →
      waitLoop L t fuel =
        Except.error "Timed out with no leader elected after 1 minute!" := by
  intro fuel
  induction fuel with
  | zero =>
    intro t h
    have ht := h t (le_refl t) (by omega)
    simp only [waitLoop, ht]
  | succ fuel ih =>
    intro t h
    have ht := h t (le_refl t) (by omega)
    simp only [waitLoop, ht]
    exact ih (t + 1) (fun u h1 h2 => h u (by omega) (by omega))

/-- Claim C7: the construction-time leader wait polls once per second and
always terminates: it returns successfully exactly when a leader is observed
at some second within the 1-minute window (returning the first such second),
and otherwise fails with the timeout error (server.go:165-179). -/
theorem C7_leader_wait_bounded (L : Nat → Option Addr) :
    (∀ n, waitForLeader L = Except.ok n ↔
       n ≤ 60 ∧ (L n).isSome ∧ ∀ u, u < n → L u = none) ∧
    ((∀ t, t ≤ 60 → L t = none) →
       waitForLeader L =
         Except.error "Timed out with no leader elected after 1 minute!") := by
  constructor
  · intro n
    rw [waitForLeader, waitLoop_ok_iff L 60 0 n]
    constructor
    · rintro ⟨-, h2, h3, h4⟩
      exact ⟨by omega, h3, fun u hu => h4 u (by omega) hu⟩
    · rintro ⟨h1, h2, h3⟩
      exact ⟨by omega, by omega, h2, fun u _ hu => h3 u hu⟩
  · intro h
    exact waitLoop_timeout L 60 0 (fun u h1 h2 => h u (by omega))

/-- Claim C7 witness: with no leader ever visible the wait fails with the
timeout error after the bounded poll. -/
theorem C7_witness :
    waitForLeader (fun _ => none) =
      Except.error "Timed out with no leader elected after 1 minute!" :=
  (C7_leader_wait_bounded (fun _ => none)).2 (fun _ _ => rfl)

/-- A peer that fails to resolve makes the resolution loop return an error. -/
lemma resolvePeers_error_of_mem (resolve : String → Option Addr) :
    ∀ (peers : List String) (p : String), p ∈ peers → resolve p = none →
      ∃ e, resolvePeers resolve peers = Except.error e := by
  intro peers
  induction peers with
  | nil =>
    intro p hp
    simp at hp
  | cons q rest ih =>
    intro p hp hres
    rcases List.mem_cons.mp hp with heq | hmem
    · subst heq
      exact ⟨"resolve " ++ p, by simp [resolvePeers, hres]⟩
    · cases hq : resolve q with
      | none => exact ⟨"resolve " ++ q, by simp [resolvePeers, hq]⟩
      | some a =>
        obtain ⟨e, he⟩ := ih p hmem hres
        exact ⟨e, by simp [resolvePeers, hq, he]⟩

/-- Under a resolution failure or a failed local-containment check, newRaft
errors out whatever the external oracle does. -/
lemma newRaft_error_of (o : RaftOracle) (resolve : String → Option Addr)
    (localAddr : Addr) (peers : List String)
    (h : (∃ p ∈ peers, resolve p = none) ∨
         (∃ addrs, resolvePeers resolve peers = Except.ok addrs ∧
            localAddr ∉ addrs)) :
    ∃ e, newRaft o resolve localAddr peers = Except.error e := by
  unfold newRaft
  split
  · exact ⟨_, rfl⟩
  split
  · exact ⟨_, rfl⟩
  rcases h with ⟨p, hp, hres⟩ | ⟨addrs, hok, hmem⟩
  · obtain ⟨e, he⟩ := resolvePeers_error_of_mem resolve peers p hp hres
    rw [he]
    exact ⟨e, rfl⟩
  · split
    · exact ⟨_, rfl⟩
    · next tl heq =>
      rw [hok] at heq
      injection heq with heq'
      subst heq'
      split
      · exact ⟨_, rfl⟩
      split
      · exact ⟨_, rfl⟩
      exact ⟨_, rfl⟩

/-- Claim C6: if any peer address fails to resolve, or the local transport
address is not contained in the resolved peer set, then newRaft returns an
error, and NewDB (whatever its other steps do) returns an error and no node
(server.go:130-151). -/
theorem C6_construction_aborts (o : RaftOracle) (resolve : String → Option Addr)
    (localAddr : Addr) (peers : List String)
    (h : (∃ p ∈ peers, resolve p = none) ∨
         (∃ addrs, resolvePeers resolve peers = Except.ok addrs ∧
            localAddr ∉ addrs)) :
    (∃ e, newRaft o resolve localAddr peers = Except.error e) ∧
    (∀ (dbo : DBOracle) (dataDir : String),
       ∃ e, (newDB dbo resolve localAddr peers dataDir).1 = Except.error e) := by
  refine ⟨newRaft_error_of o resolve localAddr peers h, ?_⟩
  intro dbo dataDir
  unfold newDB
  split
  · exact ⟨_, rfl⟩
  split
  · exact ⟨_, rfl⟩
  split
  · exact ⟨_, rfl⟩
  split
  · exact ⟨_, rfl⟩
  obtain ⟨e, he⟩ := newRaft_error_of dbo.raftO resolve localAddr peers h
  rw [he]
  exact ⟨e, rfl⟩

/-- Claim C6 witness: a single unresolvable peer aborts construction. -/
theorem C6_witness :
    ∃ e, newRaft allOkRaftOracle (fun _ => none) "n1" ["p1"] = Except.error e :=
  (C6_construction_aborts allOkRaftOracle (fun _ => none) "n1" ["p1"]
    (Or.inl ⟨"p1", by simp, rfl⟩)).1

/-- Claim C1 counterexample: on the leader path Command discards the
raft.Apply future (server.go:221); when the consensus submission fails and
the entry is never committed, the CommandCallback created for the invocation
was registered and its result channel receives zero Results — not exactly
one as the claim states. -/
theorem C1_counterexample :
    (leaderRun "n1" "Set" [[1], [2]] false ⟨some [], none⟩).1.submitted =
      some ⟨"n1", 0, "Set", [[1], [2]]⟩ ∧
    (leaderRun "n1" "Set" [[1], [2]] false ⟨some [], none⟩).2.deliveries ("n1", 0) = [] :=
  ⟨rfl, rfl⟩

/-- Claim C1 (amended): a CommandCallback's result channel receives exactly
one Result under successful apply of the committed entry (leader or
forwarded path) and under cancellation after a forwarding dispatch failure —
even if the forwarded entry later commits, the cancelled callback receives
nothing further; but when the submitted entry never commits (the Apply
future being discarded on the leader path), the channel receives zero
Results. -/
theorem C1_amended_delivery_counts (self leader cmd : String) (args : List Bytes)
    (r : Result) (e : Err) (commits : Bool) :
    (leaderRun self cmd args true r).2.deliveries (self, 0) = [r] ∧
    (leaderRun self cmd args false r).2.deliveries (self, 0) = [] ∧
    (followerRun self leader okOracle cmd args true r).2.deliveries (self, 0) = [r] ∧
    (followerRun self leader okOracle cmd args false r).2.deliveries (self, 0) = [] ∧
    (followerRun self leader (failForwardOracle e) cmd args commits r).2.deliveries
      (self, 0) = [cancelResult] ∧
    ((followerRun self leader (failForwardOracle e) cmd args commits r).2.applyEntry
      ⟨self, 0, cmd, args⟩ r).deliveries (self, 0) = [cancelResult] := by
  refine ⟨?_, ?_, ?_, ?_, ?_, ?_⟩ <;>
    simp [leaderRun, followerRun, Server.command, Server.dispatchToLeader,
      Server.forwardPhase, FlotillaState.newCommand, FlotillaState.applyEntry,
      FlotillaState.cancel, FlotillaState.deliveries, deliverTo, initState,
      okOracle, failForwardOracle, List.lookup]

/-- Cancellation never changes the request counter. -/
lemma cancel_nextReq (st : FlotillaState) (k : CBKey) :
    (st.cancel k).nextReq = st.nextReq := by
  unfold FlotillaState.cancel
  split <;> rfl

/-- Delivering on the channel at the head of the table appends to it. -/
lemma deliverTo_cons_self (k : CBKey) (rs : List Result)
    (rest : List (CBKey × List Result)) (r : Result) :
    deliverTo ((k, rs) :: rest) k r = (k, rs ++ [r]) :: deliverTo rest k r := by
  simp [deliverTo]

/-- Lookup of the key at the head of the channel table. -/
lemma lookup_cons_self (k : CBKey) (v : List Result)
    (rest : List (CBKey × List Result)) :
    List.lookup k ((k, v) :: rest) = some v := by
  simp [List.lookup]

/-- Cancelling the callback just allocated by newCommand removes it from the
pending table and leaves exactly the cancellation Result on its channel. -/
lemma cancel_new_cancelled (st : FlotillaState) (hWF : st.WF) :
    (((st.newCommand).2).cancel (st.newCommand).1).cancelledCB (st.newCommand).1 := by
  have hpend : (st.newCommand).1 ∈ (st.newCommand).2.pending := by
    simp [FlotillaState.newCommand]
  unfold FlotillaState.cancel
  rw [if_pos hpend]
  unfold FlotillaState.cancelledCB
  constructor
  · have herase : ((st.newCommand).2.pending).erase (st.newCommand).1 = st.pending :=
      List.erase_cons_head _ _
    rw [herase]
    intro hmem
    exact Nat.lt_irrefl st.nextReq (hWF _ hmem)
  · unfold FlotillaState.deliveries
    show (List.lookup (st.newCommand).1
        (deliverTo (((st.newCommand).1, []) :: st.chans)
          (st.newCommand).1 cancelResult)).getD [] = [cancelResult]
    rw [deliverTo_cons_self, lookup_cons_self]
    rfl

/-- Outcome analysis of the forward phase: a write failure cancels the
freshly allocated callback and returns (nil, err); success returns the
registered callback and nil error. -/
lemma forward_spec (s : Server) (o : NetOracle) (hWF : s.state.WF) :
    (∃ e s1, s.forwardPhase o = (DRet.ret none (some e), s1) ∧
       s1.state.nextReq = s.state.nextReq + 1 ∧
       s1.state.cancelledCB (s.state.selfAddr, s.state.nextReq)) ∨
    (∃ s1, s.forwardPhase o =
        (DRet.ret (some (s.state.selfAddr, s.state.nextReq)) none, s1) ∧
       s1.state = (s.state.newCommand).2) := by
  unfold Server.forwardPhase
  cases hfe : o.forwardErr with
  | some e =>
    left
    refine ⟨e, _, rfl, ?_, ?_⟩
    · show ((s.state.newCommand).2.cancel (s.state.newCommand).1).nextReq = _
      rw [cancel_nextReq]
      rfl
    · exact cancel_new_cancelled s.state hWF
  | none =>
    right
    exact ⟨_, rfl, rfl⟩

/-- Case analysis of dispatchToLeader: a nil leader faults; a dial or
handshake failure returns (nil, err) leaving the state machine untouched; a
write failure returns (nil, err) with the allocated callback cancelled; and
otherwise the allocated callback is returned with nil error. -/
lemma dispatch_spec (s : Server) (o : NetOracle) (hWF : s.state.WF) :
    (s.dispatchToLeader o = (DRet.fault, s) ∧ s.leaderAddr = none) ∨
    (∃ e s1, s.dispatchToLeader o = (DRet.ret none (some e), s1) ∧
       s1.state = s.state) ∨
    (∃ e s1, s.dispatchToLeader o = (DRet.ret none (some e), s1) ∧
       s1.state.nextReq = s.state.nextReq + 1 ∧
       s1.state.cancelledCB (s.state.selfAddr, s.state.nextReq)) ∨
    (∃ s1, s.dispatchToLeader o =
        (DRet.ret (some (s.state.selfAddr, s.state.nextReq)) none, s1) ∧
       s1.state = (s.state.newCommand).2) := by
  by_cases hrc : (s.leaderConnAddr.isNone || s.leaderAddr.isNone ||
      (s.leaderAddr != s.leaderConnAddr)) = true
  · cases hla : s.leaderAddr with
    | none =>
      left
      refine ⟨?_, rfl⟩
      unfold Server.dispatchToLeader
      rw [if_pos hrc, hla]
    | some la =>
      cases hdial : o.dialOk with
      | false =>
        right; left
        refine ⟨"Couldn't connect to leader at " ++ la, s, ?_, rfl⟩
        unfold Server.dispatchToLeader
        rw [if_pos hrc, hla]
        simp [hdial]
      | true =>
        cases hconn : o.connOk with
        | false =>
          right; left
          refine ⟨o.connErr, { s with leaderConnAddr := none }, ?_, rfl⟩
          unfold Server.dispatchToLeader
          rw [if_pos hrc, hla]
          simp [hdial, hconn]
        | true =>
          have hdisp : s.dispatchToLeader o =
              ({ s with leaderConnAddr := some la }).forwardPhase o := by
            unfold Server.dispatchToLeader
            rw [if_pos hrc, hla]
            simp [hdial, hconn]
          rcases forward_spec { s with leaderConnAddr := some la } o hWF with
            ⟨e, s1, heq, h1, h2⟩ | ⟨s1, heq, h1⟩
          · right; right; left
            exact ⟨e, s1, hdisp.trans heq, h1, h2⟩
          · right; right; right
            exact ⟨s1, hdisp.trans heq, h1⟩
  · have hdisp : s.dispatchToLeader o = s.forwardPhase o := by
      unfold Server.dispatchToLeader
      rw [if_neg hrc]
    rcases forward_spec s o hWF with ⟨e, s1, heq, h1, h2⟩ | ⟨s1, heq, h1⟩
    · right; right; left
      exact ⟨e, s1, hdisp.trans heq, h1, h2⟩
    · right; right; right
      exact ⟨s1, hdisp.trans heq, h1⟩

/-- Claim C2: on a non-leader node, when dispatch to the leader fails,
Command returns a channel already holding exactly one Result carrying the
dispatch error, and every callback provisionally allocated during that
dispatch has been cancelled before Command returns (server.go:224-234,
262-268). -/
theorem C2_dispatch_error_prepopulated (s : Server) (o : NetOracle)
    (cmd : String) (args : List Bytes) (e : Err)
    (hL : s.isLeader = false) (hWF : s.state.WF)
    (hfail : ∃ cbOpt, (s.dispatchToLeader o).1 = DRet.ret cbOpt (some e)) :
    (s.command o cmd args).ret =
      CmdRet.ret (.freshChan [⟨none, some e⟩]) ∧
    ∀ n, s.state.nextReq ≤ n → n < (s.command o cmd args).s.state.nextReq →
      (s.command o cmd args).s.state.cancelledCB (s.state.selfAddr, n) := by
  obtain ⟨cbOpt, hco⟩ := hfail
  rcases dispatch_spec s o hWF with ⟨heq, -⟩ | ⟨e2, s1, heq, hst⟩ |
    ⟨e2, s1, heq, hnr, hcc⟩ | ⟨s1, heq, hst⟩
  · rw [heq] at hco
    exact absurd hco (by simp)
  · rw [heq] at hco
    simp only [DRet.ret.injEq] at hco
    obtain ⟨hcb, hee⟩ := hco
    injection hee with hee
    subst hee
    have hcmd : s.command o cmd args =
        ⟨CmdRet.ret (.freshChan [⟨none, some e2⟩]), s1, none, false⟩ := by
      unfold Server.command
      rw [hL, heq]
      rfl
    refine ⟨by rw [hcmd], ?_⟩
    intro n h1 h2
    rw [hcmd] at h2
    have h2' : n < s1.state.nextReq := h2
    rw [hst] at h2'
    omega
  · rw [heq] at hco
    simp only [DRet.ret.injEq] at hco
    obtain ⟨hcb, hee⟩ := hco
    injection hee with hee
    subst hee
    have hcmd : s.command o cmd args =
        ⟨CmdRet.ret (.freshChan [⟨none, some e2⟩]), s1, none, false⟩ := by
      unfold Server.command
      rw [hL, heq]
      rfl
    refine ⟨by rw [hcmd], ?_⟩
    intro n h1 h2
    rw [hcmd] at h2
    have h2' : n < s1.state.nextReq := h2
    rw [hnr] at h2'
    have hn : n = s.state.nextReq := by omega
    subst hn
    rw [hcmd]
    exact hcc
  · rw [heq] at hco
    exact absurd hco (by simp)

/-- Claim C2 witness: a concrete follower whose forward write fails gets the
pre-populated error channel back, with the provisional callback cancelled. -/
theorem C2_witness :
    (Server.command (freshFollower "n1" (some "L")) (failForwardOracle "w")
        "Set" []).ret = CmdRet.ret (.freshChan [⟨none, some "w"⟩]) ∧
    (Server.command (freshFollower "n1" (some "L")) (failForwardOracle "w")
        "Set" []).s.state.cancelledCB ("n1", 0) := by
  have h := C2_dispatch_error_prepopulated (freshFollower "n1" (some "L"))
    (failForwardOracle "w") "Set" [] "w" rfl
    (fun k hk => absurd hk (List.not_mem_nil k)) ⟨none, rfl⟩
  exact ⟨h.1, h.2 0 (Nat.le_refl 0) (by decide)⟩

/-- Claim C10: whenever dispatchToLeader returns (rather than faulting), the
pair is either a callback with nil error or a nil callback with an error; on
every error return the allocated callback was already cancelled inside
dispatchToLeader, and the caller-side guard in Command that cancels a
non-nil callback on error never runs (server.go:225-229, 239-269). -/
theorem C10_dispatch_xor_shape (s : Server) (o : NetOracle) (cmd : String)
    (args : List Bytes) (hWF : s.state.WF) :
    (∀ cbOpt eOpt s1, s.dispatchToLeader o = (DRet.ret cbOpt eOpt, s1) →
       ((∃ k, cbOpt = some k ∧ eOpt = none) ∨
        (cbOpt = none ∧ ∃ e, eOpt = some e)) ∧
       (eOpt.isSome = true →
          ∀ n, s.state.nextReq ≤ n → n < s1.state.nextReq →
            s1.state.cancelledCB (s.state.selfAddr, n))) ∧
    (s.command o cmd args).guardRan = false := by
  constructor
  · intro cbOpt eOpt s1 hret
    rcases dispatch_spec s o hWF with ⟨heq, -⟩ | ⟨e2, s2, heq, hst⟩ |
      ⟨e2, s2, heq, hnr, hcc⟩ | ⟨s2, heq, hst⟩
    · rw [heq] at hret
      simp at hret
    · rw [heq] at hret
      rw [Prod.mk.injEq] at hret
      obtain ⟨ha, hb⟩ := hret
      injection ha with hcb hee
      subst hcb
      subst hee
      subst hb
      refine ⟨Or.inr ⟨rfl, e2, rfl⟩, ?_⟩
      intro _ n h1 h2
      rw [hst] at h2
      omega
    · rw [heq] at hret
      rw [Prod.mk.injEq] at hret
      obtain ⟨ha, hb⟩ := hret
      injection ha with hcb hee
      subst hcb
      subst hee
      subst hb
      refine ⟨Or.inr ⟨rfl, e2, rfl⟩, ?_⟩
      intro _ n h1 h2
      rw [hnr] at h2
      have hn : n = s.state.nextReq := by omega
      subst hn
      exact hcc
    · rw [heq] at hret
      rw [Prod.mk.injEq] at hret
      obtain ⟨ha, hb⟩ := hret
      injection ha with hcb hee
      subst hcb
      subst hee
      subst hb
      refine ⟨Or.inl ⟨_, rfl, rfl⟩, ?_⟩
      intro hs
      simp at hs
  · cases hL : s.isLeader with
    | true =>
      unfold Server.command
      rw [hL]
      rfl
    | false =>
      unfold Server.command
      rw [hL]
      rcases dispatch_spec s o hWF with ⟨heq, -⟩ | ⟨e2, s2, heq, -⟩ |
        ⟨e2, s2, heq, -, -⟩ | ⟨s2, heq, -⟩ <;> rw [heq] <;> rfl

/-- Claim C10 witness: a concrete failing dispatch leaves the caller-side
guard unexecuted. -/
theorem C10_witness :
    (Server.command (freshFollower "n2" (some "L")) (failForwardOracle "w2")
        "Get" []).guardRan = false :=
  (C10_dispatch_xor_shape (freshFollower "n2" (some "L"))
    (failForwardOracle "w2") "Get" []
    (fun k hk => absurd hk (List.not_mem_nil k))).2

/-- Accumulator invariant of the merge loop: caller entries win, untouched
names keep the running default, and the warning list grows by exactly the
caller names already present. -/
lemma mergeCommands_spec {α : Type} (u : List (String × α)) :
    ∀ (d : String → Option α) (w : List String),
      (u.map Prod.fst).Nodup →
      ((∀ k v, (k, v) ∈ u → (mergeCommands d w u).1 k = some v) ∧
       (∀ k, k ∉ u.map Prod.fst → (mergeCommands d w u).1 k = d k) ∧
       (∀ k, k ∈ (mergeCommands d w u).2 ↔
          k ∈ w ∨ (k ∈ u.map Prod.fst ∧ (d k).isSome = true))) := by
  induction u with
  | nil =>
    intro d w _
    refine ⟨?_, ?_, ?_⟩
    · intro k v hkv
      simp at hkv
    · intro k _
      rfl
    · intro k
      simp [mergeCommands]
  | cons p rest ih =>
    obtain ⟨k0, v0⟩ := p
    intro d w hnd
    rw [List.map_cons, List.nodup_cons] at hnd
    obtain ⟨hk0, hnd'⟩ := hnd
    have hstep : mergeCommands d w ((k0, v0) :: rest) =
        mergeCommands (fun n => if n = k0 then some v0 else d n)
          (if (d k0).isSome then w ++ [k0] else w) rest := rfl
    obtain ⟨iha, ihb, ihc⟩ := ih (fun n => if n = k0 then some v0 else d n)
      (if (d k0).isSome then w ++ [k0] else w) hnd'
    refine ⟨?_, ?_, ?_⟩
    · intro k v hkv
      rw [hstep]
      rcases List.mem_cons.mp hkv with heq | hmem
      · injection heq with h1 h2
        subst h1
        subst h2
        rw [ihb k hk0]
        simp
      · exact iha k v hmem
    · intro k hk
      rw [List.map_cons] at hk
      have hk1 : k ≠ k0 := fun h => hk (by simp [h])
      have hk2 : k ∉ rest.map Prod.fst := fun h => hk (List.mem_cons_of_mem _ h)
      rw [hstep, ihb k hk2]
      simp [hk1]
    · intro k
      rw [hstep, ihc k]
      by_cases hkk : k = k0
      · subst hkk
        by_cases hds : (d k).isSome = true <;>
          simp [hds, hk0, List.mem_append]
      · by_cases hds : (d k0).isSome = true <;>
          simp [hds, hkk, List.mem_append]

/-- Claim C9: the registry handed to the state machine maps every
caller-supplied name to the caller's executor, keeps the default executor
for every name the caller did not supply, and warns exactly on the names
present in both (server.go:64-71); being a pure value fixed before
newFlotillaState is called, it is never mutated afterwards. -/
theorem C9_registry_merge {α : Type} (defaults : String → Option α)
    (user : List (String × α)) (hnd : (user.map Prod.fst).Nodup) :
    (∀ k v, (k, v) ∈ user → (commandsForStateMachine defaults user).1 k = some v) ∧
    (∀ k, k ∉ user.map Prod.fst →
       (commandsForStateMachine defaults user).1 k = defaults k) ∧
    (∀ k, k ∈ (commandsForStateMachine defaults user).2 ↔
       k ∈ user.map Prod.fst ∧ (defaults k).isSome = true) := by
  obtain ⟨ha, hb, hc⟩ := mergeCommands_spec user defaults [] hnd
  refine ⟨ha, hb, ?_⟩
  intro k
  unfold commandsForStateMachine
  rw [hc k]
  simp

/-- Claim C9 witness: overriding one default and keeping another. -/
theorem C9_witness :
    (commandsForStateMachine
        (fun n => if n = "Noop" then some (0 : Nat) else none)
        [("Set", 5)]).1 "Set" = some 5 ∧
    (commandsForStateMachine
        (fun n => if n = "Noop" then some (0 : Nat) else none)
        [("Set", 5)]).1 "Noop" = some 0 := by
  have h := C9_registry_merge
    (fun n => if n = "Noop" then some (0 : Nat) else none) [("Set", 5)] (by simp)
  refine ⟨h.1 "Set" 5 (by simp), ?_⟩
  rw [h.2.1 "Noop" (by simp)]
  simp

end Flotilla
